import Mathlib

/-!
Verification of the Time-Tracker engine: a shallow embedding of the
plugin's utility functions (`parseTimeToMinutes`, `calculateDiffInMinutes`,
`extractTrackerId`, `fixAllTrackerBlocksInFile`, `isDateInRange`,
`filterEntries`, the block-state initialization and the per-project /
per-activity aggregation), together with theorems about the properties
stated in the specification.

Strings are modelled as Lean `String` / `List Char`; the JavaScript
`Number(...)` coercion is modelled on optionally signed decimal literals
(digits with an optional fraction part); exotic numeric forms (hex,
exponent, `Infinity`) are outside the model and map to `none` (NaN).
Numeric values are modelled as `ℚ` (the inputs exercised here are exact
in binary floating point, so rational arithmetic agrees with the JS
evaluation on them).
-/

namespace TimeTracker

/-- Whitespace as trimmed by JS string/number coercion: space, tab, LF, CR,
vertical tab, form feed, NBSP. -/
def isJsWS (c : Char) : Bool :=
  c == ' ' || c == '\t' || c == '\n' || c == '\r' ||
  c == '\x0b' || c == '\x0c' || c == ' '

/-- Value of a list of decimal digits, most significant first. -/
def digitsVal (cs : List Char) : Nat :=
  cs.foldl (fun n c => 10 * n + (c.toNat - 48)) 0

/-- Trim JS whitespace from both ends. -/
def trimJs (cs : List Char) : List Char :=
  ((cs.dropWhile isJsWS).reverse.dropWhile isJsWS).reverse

/-- Unsigned decimal literal: digits with an optional `.` and fraction
digits.  `"5."` and `".5"` are accepted (as in JS), `"."` and a trailing
non-digit are rejected (NaN). -/
def parseUnsignedDec (cs : List Char) : Option ℚ :=
  let ip := cs.takeWhile Char.isDigit
  match cs.drop ip.length with
  | [] => if ip = [] then none else some (digitsVal ip)
  | c :: tl =>
    if c = '.' then
      if tl.all Char.isDigit && (ip ≠ [] || tl ≠ []) then
        some ((digitsVal ip : ℚ) + (digitsVal tl : ℚ) / (10 : ℚ) ^ tl.length)
      else none
    else none

/-- Model of the JS `Number(...)` string coercion (decimal fragment):
trim whitespace, empty means 0, optional sign, decimal literal;
`none` models NaN. -/
def jsToNumber (cs0 : List Char) : Option ℚ :=
  match trimJs cs0 with
  | [] => some 0
  | c :: tl =>
    if c = '-' then (parseUnsignedDec tl).map (fun q => -q)
    else if c = '+' then parseUnsignedDec tl
    else parseUnsignedDec (c :: tl)

/-- JS `String.prototype.split` with a single-character separator. -/
def splitOnChar (sep : Char) : List Char → List (List Char)
  | [] => [[]]
  | c :: cs =>
    if c = sep then [] :: splitOnChar sep cs
    else
      match splitOnChar sep cs with
      | [] => [[c]]
      | p :: ps => (c :: p) :: ps

/-- `parseTimeToMinutes` (utils/time): empty input or input without `':'`
parses to 0; otherwise split on `':'`, coerce the first two fields with
`Number`; if either is NaN the result is 0, else `h * 60 + m`.
(When the guard is passed the split has at least two fields, so the
default-field fallback 0 of the match is never taken.) -/
def parseTimeToMinutes (timestr : String) : ℚ :=
  if timestr = "" ∨ timestr.toList.contains ':' = false then 0
  else
    let parts := splitOnChar ':' timestr.toList
    match jsToNumber (parts.getD 0 []), jsToNumber (parts.getD 1 []) with
    | some h, some m => h * 60 + m
    | _, _ => 0

/-- JS `Math.round`: round half toward positive infinity. -/
def jsRound (x : ℚ) : ℤ := ⌊x + 1 / 2⌋

/-- `calculateDiffInMinutes` (utils/time): parse both endpoints, add 1440
to the end when it is strictly before the start (midnight crossing),
clamp negatives to 0, and when `round` is set quantize to the nearest
15-minute multiple with `Math.round(diff / 15) * 15`. -/
def calculateDiffInMinutes (start «end» : String) (round : Bool) : ℚ :=
  let startM := parseTimeToMinutes start
  let endM0 := parseTimeToMinutes «end»
  let endM := if endM0 < startM then endM0 + 24 * 60 else endM0
  let diff0 := endM - startM
  let diff := if diff0 < 0 then 0 else diff0
  if round then (jsRound (diff / 15) : ℚ) * 15 else diff

/-- The difference computed by `calculateDiffInMinutes` just before the
defensive clamp (end minus start after the midnight-crossing adjustment). -/
def preClampDiff (start «end» : String) : ℚ :=
  let startM := parseTimeToMinutes start
  let endM0 := parseTimeToMinutes «end»
  let endM := if endM0 < startM then endM0 + 24 * 60 else endM0
  endM - startM

/-- Verification-side variant of `calculateDiffInMinutes` with the
defensive negative clamp removed, used to state that the clamp never
changes the result on well-formed input. -/
def calculateDiffNoClamp (start «end» : String) (round : Bool) : ℚ :=
  let startM := parseTimeToMinutes start
  let endM0 := parseTimeToMinutes «end»
  let endM := if endM0 < startM then endM0 + 24 * 60 else endM0
  let diff := endM - startM
  if round then (jsRound (diff / 15) : ℚ) * 15 else diff

/-- Well-formed 24-hour `HH:MM` clock time: exactly two digits, a colon,
two digits, with hour below 24 and minute below 60. -/
def isValidClockTime (s : String) : Bool :=
  match s.toList with
  | [a, b, c, d, e] =>
    a.isDigit && b.isDigit && (c == ':') && d.isDigit && e.isDigit &&
    decide (10 * (a.toNat - 48) + (b.toNat - 48) < 24) &&
    decide (10 * (d.toNat - 48) + (e.toNat - 48) < 60)
  | _ => false

/-! ## Identity manager: `extractTrackerId` and `fixAllTrackerBlocksInFile` -/

/-- Does the list start with the given pattern? -/
def leadsWith : List Char → List Char → Bool
  | [], _ => true
  | _ :: _, [] => false
  | a :: as, b :: bs => a == b && leadsWith as bs

/-- Consume a literal from the front, returning the remainder. -/
def chopLit : List Char → List Char → Option (List Char)
  | [], cs => some cs
  | _ :: _, [] => none
  | a :: as, b :: bs => if a = b then chopLit as bs else none

/-- The backtick character (avoids a backtick literal in the sources). -/
def btick : Char := Char.ofNat 96

/-- `"<!--"`. -/
def bangOpen : List Char := ['<', '!', '-', '-']

/-- `"tracker-id:"`. -/
def idLit : List Char := "tracker-id:".toList

/-- `"-->"`. -/
def closeLit : List Char := ['-', '-', '>']

/-- Backtracking step of the marker regex `<!--\s*tracker-id:\s*(\S+)\s*-->`:
the greedy `\S+` run `w` is cut back (largest k first) until the remainder,
after optional whitespace, starts with `-->`. -/
def trySplit : Nat → List Char → List Char → Option (List Char)
  | 0, _, _ => none
  | k + 1, w, rest =>
    if leadsWith closeLit ((w.drop (k + 1) ++ rest).dropWhile isJsWS) then
      some (w.take (k + 1))
    else trySplit k w rest

/-- Attempt the marker regex body right after a `<!--`. -/
def matchMarkerBody (cs : List Char) : Option (List Char) :=
  match chopLit idLit (cs.dropWhile isJsWS) with
  | none => none
  | some cs1 =>
    let cs2 := cs1.dropWhile isJsWS
    let w := cs2.takeWhile (fun c => !isJsWS c)
    trySplit w.length w (cs2.drop w.length)

/-- `extractTrackerId` (utils/time): first match of
`/<!--\s*tracker-id:\s*(\S+)\s*-->/`, returning the captured token. -/
def extractTrackerId : List Char → Option (List Char)
  | [] => none
  | c :: cs =>
    if leadsWith bangOpen (c :: cs) then
      match matchMarkerBody ((c :: cs).drop 4) with
      | some g => some g
      | none => extractTrackerId cs
    else extractTrackerId cs

/-- `` "```time-tracker" ``, the opening of a fenced tracker block. -/
def openTag : List Char := btick :: btick :: btick :: "time-tracker".toList

/-- `` "```" ``, a fence. -/
def fenceLit : List Char := [btick, btick, btick]

/-- Index of the first occurrence of `needle` in the haystack. -/
def findIdx? (needle : List Char) : List Char → Option Nat
  | [] => if needle = [] then some 0 else none
  | c :: cs =>
    if leadsWith needle (c :: cs) then some 0
    else (findIdx? needle cs).map (· + 1)

/-- All matches of the global regex `` /```time-tracker([\s\S]*?)```/g ``:
repeatedly find the opening tag, then the next fence (lazy group), and
continue after it.  Returns `(full match text, group text)` pairs.
Fuel-driven; each step consumes at least the opening tag, so
`length + 1` fuel suffices. -/
def findMatchesAux (fuel : Nat) (cs : List Char) : List (List Char × List Char) :=
  match fuel with
  | 0 => []
  | fuel + 1 =>
    match findIdx? openTag cs with
    | none => []
    | some i =>
      let after := (cs.drop i).drop openTag.length
      match findIdx? fenceLit after with
      | none => []
      | some j =>
        ((openTag ++ after.take j) ++ fenceLit, after.take j) ::
          findMatchesAux fuel (after.drop (j + fenceLit.length))

/-- See `findMatchesAux`. -/
def findMatches (cs : List Char) : List (List Char × List Char) :=
  findMatchesAux (cs.length + 1) cs

/-- The embedded marker line `<!-- tracker-id: <id> -->`. -/
def markerOf (id : List Char) : List Char :=
  "<!-- tracker-id: ".toList ++ id ++ " -->".toList

/-- The rewritten block: `` "```time-tracker" + "\n<marker>\n" + blockContent + "```" ``. -/
def stampNew (id grp : List Char) : List Char :=
  openTag ++ '\n' :: (markerOf id ++ '\n' :: grp) ++ fenceLit

/-- JS `String.prototype.replace` with a plain-string pattern: replace the
first occurrence.  (`$`-substitution patterns in the replacement are not
modelled; the generated marker text contains no `$`.) -/
def replaceFirst (needle repl : List Char) : List Char → List Char
  | [] => []
  | c :: cs =>
    if leadsWith needle (c :: cs) then repl ++ (c :: cs).drop needle.length
    else c :: replaceFirst needle repl cs

/-- The rewrite loop of `fixAllTrackerBlocksInFile`: for each regex match
of the original content (in order), if its group has no embedded marker,
replace the first occurrence of the full match text in the accumulated
document with the stamped block, consuming the next generated id. -/
def fixAllGo (ids : Nat → List Char) : Nat → List (List Char × List Char) → List Char → List Char
  | _, [], u => u
  | k, (full, grp) :: ms, u =>
    match extractTrackerId grp with
    | some _ => fixAllGo ids k ms u
    | none => fixAllGo ids (k + 1) ms (replaceFirst full (stampNew (ids k) grp) u)

/-- `fixAllTrackerBlocksInFile` (main.ts), the text transformation only:
scan the document for fenced `time-tracker` blocks and stamp a freshly
generated tracker-id marker into each block that lacks one.  `ids` is the
stream of ids produced by `generateNewId` (random in the source, a
parameter here). -/
def fixAllTrackerBlocksInFile (ids : Nat → List Char) (content : List Char) : List Char :=
  fixAllGo ids 0 (findMatches content) content

/-- The overlapping-fences document
`` "```time-tracker ```time-tracker A ``` ```time-tracker A ```" ``
used to refute idempotence of the rewrite. -/
def overlapDoc : List Char :=
  openTag ++ ' ' :: openTag ++ (' ' :: 'A' :: ' ' :: fenceLit) ++
    ' ' :: openTag ++ (' ' :: 'A' :: ' ' :: fenceLit)

/-- A constant id supply for concrete counterexamples. -/
def constIds : Nat → List Char := fun _ => ['i', 'd']

/-! ## Data model, export filter, block state, aggregation -/

/-- A time entry (models/TimeEntry). -/
structure TimeEntry where
  date : String
  start : String
  «end» : String
  project : String
  activity : String
deriving DecidableEq

/-- A calendar date as year/month/day. -/
structure YMD where
  year : Nat
  month : Nat
  day : Nat
deriving DecidableEq

/-- Gregorian leap year. -/
def isLeapYear (y : Nat) : Bool :=
  decide ((y % 4 = 0 ∧ ¬y % 100 = 0) ∨ y % 400 = 0)

/-- Days in a month. -/
def daysInMonth (y m : Nat) : Nat :=
  if m = 2 then (if isLeapYear y then 29 else 28)
  else if m = 4 ∨ m = 6 ∨ m = 9 ∨ m = 11 then 30
  else 31

/-- Model of `new Date(s)` on ISO `YYYY-MM-DD` strings: the date triple
when well-formed and in range, `none` (an invalid date, NaN timestamp)
otherwise.  Other JS date formats are outside the model.  Comparison of
two valid `YYYY-MM-DD` dates via their UTC timestamps is exactly the
lexicographic comparison of the triples, which is how comparisons are
modelled below. -/
def parseIsoDate (s : String) : Option YMD :=
  match s.toList with
  | [y1, y2, y3, y4, h1, m1, m2, h2, d1, d2] =>
    if y1.isDigit && y2.isDigit && y3.isDigit && y4.isDigit && (h1 == '-') &&
        m1.isDigit && m2.isDigit && (h2 == '-') && d1.isDigit && d2.isDigit then
      let y := digitsVal [y1, y2, y3, y4]
      let m := digitsVal [m1, m2]
      let d := digitsVal [d1, d2]
      if 1 ≤ m ∧ m ≤ 12 ∧ 1 ≤ d ∧ d ≤ daysInMonth y m then some ⟨y, m, d⟩ else none
    else none
  | _ => none

/-- Lexicographic (chronological) order on date triples. -/
def ymdLe (a b : YMD) : Bool :=
  decide (a.year < b.year ∨ (a.year = b.year ∧
    (a.month < b.month ∨ (a.month = b.month ∧ a.day ≤ b.day))))

/-- `isDateInRange` (utils/time): false for an empty date; otherwise
`new Date(date) >= new Date(start) && new Date(date) <= new Date(end)`,
where any invalid date makes both comparisons false (NaN). -/
def isDateInRange (date start «end» : String) : Bool :=
  if date = "" then false
  else
    match parseIsoDate date, parseIsoDate start, parseIsoDate «end» with
    | some d, some s, some e => ymdLe s d && ymdLe d e
    | _, _, _ => false

/-- `filterEntries` (main.ts) applied to the flattened entry collection:
keep the entries in date range whose project matches (an empty `project`
argument disables the project filter). -/
def filterEntries (allEntries : List TimeEntry) (start «end» project : String) :
    List TimeEntry :=
  allEntries.filter (fun e =>
    isDateInRange e.date start «end» && (project == "" || e.project == project))

/-- Spec-side filter predicate, written from the specification's words:
the entry's `date` field lies in the inclusive calendar-date range
`[dateStart, dateEnd]`, and when the optional project is non-empty the
entry's project equals it exactly. -/
def specKeepEntry (dateStart dateEnd project : String) (e : TimeEntry) : Bool :=
  (match parseIsoDate e.date, parseIsoDate dateStart, parseIsoDate dateEnd with
   | some d, some lo, some hi => ymdLe lo d && ymdLe d hi
   | _, _, _ => false) &&
  (project == "" || e.project == project)

/-- Per-block sort preference values `'start' | 'project'` (besides `null`). -/
inductive SortKey where
  | start
  | project
deriving DecidableEq

/-- The plugin's in-memory data (main.ts `data`): three maps keyed by
tracker id.  `sortSettings` stores `null` as `some none`; an absent key is
`none`. -/
@[ext]
structure PluginData where
  instances : String → Option (List TimeEntry)
  sortSettings : String → Option (Option SortKey)
  trackerDates : String → Option String

/-- The data-initialization part of `TimeTrackerBlock.initialize`
(lines 25–35): create an empty entry array when the id has none, store
`null` sort when the stored value is absent or `null` (both falsy in JS),
and when the stored reference date is absent or empty (falsy) take the
first entry's date, or `today` when there is no first entry or its date is
empty. -/
def initializeBlockData (today id : String) (st : PluginData) : PluginData :=
  let inst : String → Option (List TimeEntry) :=
    match st.instances id with
    | none => fun j => if j = id then some [] else st.instances j
    | some _ => st.instances
  let sorts : String → Option (Option SortKey) :=
    if st.sortSettings id = none ∨ st.sortSettings id = some none then
      fun j => if j = id then some none else st.sortSettings j
    else st.sortSettings
  let dates : String → Option String :=
    if st.trackerDates id = none ∨ st.trackerDates id = some "" then
      let v : String :=
        match ((inst id).getD []).head? with
        | some e0 => if e0.date = "" then today else e0.date
        | none => today
      fun j => if j = id then some v else st.trackerDates j
    else st.trackerDates
  ⟨inst, sorts, dates⟩

/-- The reference-date change handler (`headerDateInput.onchange`,
TimeTrackerBlock.ts lines 60–65): store the new date for the block and
overwrite the `date` field of each of the block's entries with it. -/
def setReferenceDate (id val : String) (st : PluginData) : PluginData :=
  { st with
    trackerDates := fun j => if j = id then some val else st.trackerDates j
    instances := fun j =>
      if j = id then (st.instances j).map (List.map (fun e => { e with date := val }))
      else st.instances j }

/-- JS `String.prototype.trim`. -/
def jsTrim (s : String) : String := ⟨trimJs s.toList⟩

/-- Duration of one entry under the global quantize flag. -/
def durOf (q : Bool) (e : TimeEntry) : ℚ :=
  calculateDiffInMinutes e.start e.«end» q

/-- One `projectMap.set(key, (projectMap.get(key) || 0) + diff)` step on an
insertion-ordered association list (JS `Map` updates an existing key in
place and appends a new key). -/
def addToMap (k : String) (v : ℚ) : List (String × ℚ) → List (String × ℚ)
  | [] => [(k, v)]
  | (k', v') :: rest =>
    if k' = k then (k', v' + v) :: rest else (k', v') :: addToMap k v rest

/-- The map built by `renderProjectSummaries` / `renderActivitySummaries`:
skip entries whose trimmed key is empty, otherwise accumulate the entry's
duration under the trimmed key. -/
def sumsBy (key : TimeEntry → String) (q : Bool) (entries : List TimeEntry) :
    List (String × ℚ) :=
  entries.foldl
    (fun m e =>
      let k := jsTrim (key e)
      if k = "" then m else addToMap k (durOf q e) m)
    []

/-- `renderProjectSummaries` (TimeTrackerBlock.ts): per-project sums keyed
by trimmed project. -/
def projectSums (q : Bool) (entries : List TimeEntry) : List (String × ℚ) :=
  sumsBy TimeEntry.project q entries

/-- `renderActivitySummaries` (TimeTrackerBlock.ts): per-activity sums
keyed by trimmed activity. -/
def activitySums (q : Bool) (entries : List TimeEntry) : List (String × ℚ) :=
  sumsBy TimeEntry.activity q entries

/-- The minute total computed by `calculateSumAll` (TimeTrackerBlock.ts):
`entries.reduce((acc, e) => acc + calculateDiffInMinutes(...), 0)`.
(The source formats this total as `H:MM` for display.) -/
def calculateSumAllMinutes (q : Bool) (entries : List TimeEntry) : ℚ :=
  entries.foldl (fun acc e => acc + durOf q e) 0

/-- Sum of the values of an association-list map. -/
def sumVals (m : List (String × ℚ)) : ℚ := (m.map Prod.snd).sum

/-! ## Concrete instances used to witness the theorems below -/

/-- `` "pre ```time-tracker r ``` post" ``: a document with one unstamped block. -/
def simpleDoc : List Char :=
  "pre ".toList ++ openTag ++ (' ' :: 'r' :: ' ' :: fenceLit) ++ " post".toList

/-- A state with no data stored at all. -/
def stEmpty : PluginData := ⟨fun _ => none, fun _ => none, fun _ => none⟩

/-- Two concrete entries of block "a". -/
def entryA1 : TimeEntry := ⟨"2024-01-01", "09:00", "10:30", "A", "x"⟩

/-- Second concrete entry. -/
def entryA2 : TimeEntry := ⟨"2024-01-01", "10:30", "09:00", "B", "y"⟩

/-- A state holding block "a" with two entries, a stored sort and a date. -/
def stOne : PluginData :=
  ⟨fun j => if j = "a" then some [entryA1, entryA2] else none,
   fun j => if j = "a" then some (some SortKey.start) else none,
   fun j => if j = "a" then some "2024-01-01" else none⟩

/-! ## Character and parsing lemmas -/

theorem digit_ne_of {c : Char} (d : Char) (h : c.isDigit = true)
    (hd : d.isDigit = false) : ¬c = d := by
  intro e
  subst e
  rw [h] at hd
  simp at hd

theorem digit_not_ws {c : Char} (h : c.isDigit = true) : isJsWS c = false := by
  have h1 : ¬c = ' ' := digit_ne_of ' ' h (by decide)
  have h2 : ¬c = '\t' := digit_ne_of '\t' h (by decide)
  have h3 : ¬c = '\n' := digit_ne_of '\n' h (by decide)
  have h4 : ¬c = '\r' := digit_ne_of '\r' h (by decide)
  have h5 : ¬c = '\x0b' := digit_ne_of '\x0b' h (by decide)
  have h6 : ¬c = '\x0c' := digit_ne_of '\x0c' h (by decide)
  have h7 : ¬c = ' ' := digit_ne_of ' ' h (by decide)
  simp [isJsWS, beq_iff_eq, h1, h2, h3, h4, h5, h6, h7]

theorem parseTimeToMinutes_empty : parseTimeToMinutes "" = 0 := by
  simp [parseTimeToMinutes]

/-- A well-formed `HH:MM` string parses to a whole number of minutes
below 1440. -/
theorem parse_of_valid {s : String} (h : isValidClockTime s = true) :
    ∃ n : ℕ, n < 1440 ∧ parseTimeToMinutes s = (n : ℚ) := by
  unfold isValidClockTime at h
  split at h
  case h_2 => simp at h
  case h_1 a b c d e hl =>
    simp only [Bool.and_eq_true, beq_iff_eq, decide_eq_true_eq] at h
    obtain ⟨⟨⟨⟨⟨⟨ha, hb⟩, hc⟩, hd⟩, he⟩, h24⟩, h60⟩ := h
    subst hc
    have ha' : ¬a = ':' := digit_ne_of ':' ha (by decide)
    have hb' : ¬b = ':' := digit_ne_of ':' hb (by decide)
    have hd' : ¬d = ':' := digit_ne_of ':' hd (by decide)
    have he' : ¬e = ':' := digit_ne_of ':' he (by decide)
    have hne : s ≠ "" := by
      intro hs
      rw [hs] at hl
      simp at hl
    have hct : s.toList.contains ':' = true := by
      rw [hl]
      show List.elem ':' [a, b, ':', d, e] = true
      rw [List.elem_eq_mem]
      simp
    have hsplit : splitOnChar ':' s.toList = [[a, b], [d, e]] := by
      rw [hl]
      simp [splitOnChar, ha', hb', hd', he']
    have hnum : ∀ x y : Char, x.isDigit = true → y.isDigit = true →
        jsToNumber [x, y] = some ((digitsVal [x, y] : ℕ) : ℚ) := by
      intro x y hx hy
      have hwx := digit_not_ws hx
      have hwy := digit_not_ws hy
      have htrim : trimJs [x, y] = [x, y] := by
        simp [trimJs, List.dropWhile_cons, hwx, hwy]
      rw [jsToNumber, htrim]
      have hxm : ¬x = '-' := digit_ne_of '-' hx (by decide)
      have hxp : ¬x = '+' := digit_ne_of '+' hx (by decide)
      simp only [hxm, if_false, hxp]
      rw [parseUnsignedDec]
      simp [List.takeWhile_cons, hx, hy]
    have hget0 : jsToNumber ((splitOnChar ':' s.toList).getD 0 []) =
        some ((digitsVal [a, b] : ℕ) : ℚ) := by
      rw [hsplit]; exact hnum a b ha hb
    have hget1 : jsToNumber ((splitOnChar ':' s.toList).getD 1 []) =
        some ((digitsVal [d, e] : ℕ) : ℚ) := by
      rw [hsplit]; exact hnum d e hd he
    refine ⟨digitsVal [a, b] * 60 + digitsVal [d, e], ?_, ?_⟩
    · have hab : digitsVal [a, b] = 10 * (a.toNat - 48) + (b.toNat - 48) := by
        simp [digitsVal, List.foldl]
      have hde : digitsVal [d, e] = 10 * (d.toNat - 48) + (e.toNat - 48) := by
        simp [digitsVal, List.foldl]
      omega
    · have hA := hnum a b ha hb
      have hB := hnum d e hd he
      simp only [parseTimeToMinutes, hct, hsplit, List.getD, List.get?,
        Option.getD_some, hA, hB]
      rw [if_neg (by simp [hne])]
      push_cast
      ring

/-- Precondition of the duration claims: the string parses to a whole
number of minutes below 1440 (true of every well-formed `HH:MM` string and
of the empty string). -/
theorem clockBound {s : String} (h : isValidClockTime s = true ∨ s = "") :
    ∃ n : ℕ, n < 1440 ∧ parseTimeToMinutes s = (n : ℚ) := by
  rcases h with h | h
  · exact parse_of_valid h
  · exact ⟨0, by norm_num, by rw [h, parseTimeToMinutes_empty]; norm_num⟩

/-! ## Duration engine: claims C1, C2, C8, C10 -/

theorem calc_eq_clamped (s e : String) (rnd : Bool) :
    calculateDiffInMinutes s e rnd =
      if rnd then
        (jsRound ((if preClampDiff s e < 0 then 0 else preClampDiff s e) / 15) : ℚ) * 15
      else if preClampDiff s e < 0 then 0 else preClampDiff s e := rfl

theorem calcNoClamp_eq (s e : String) (rnd : Bool) :
    calculateDiffNoClamp s e rnd =
      if rnd then (jsRound (preClampDiff s e / 15) : ℚ) * 15
      else preClampDiff s e := rfl

theorem calc_round_formula (s e : String) :
    calculateDiffInMinutes s e true =
      (jsRound (calculateDiffInMinutes s e false / 15) : ℚ) * 15 := rfl

/-- C1: for clock-time inputs (each endpoint a well-formed `HH:MM` string,
or empty, both of which parse to a whole number of minutes in `[0, 1440)`),
`calculateDiffInMinutes s e false` is `0` when `s = e`, and in general
equals `(parse e - parse s) mod 1440`: an end strictly before the start is
treated as crossing midnight (1440 minutes are added), never as invalid
input. -/
theorem elapsed_eq_mod_1440 (s e : String)
    (hs : isValidClockTime s = true ∨ s = "")
    (he : isValidClockTime e = true ∨ e = "") :
    (s = e → calculateDiffInMinutes s e false = 0) ∧
    calculateDiffInMinutes s e false =
      (((⌊parseTimeToMinutes e⌋ - ⌊parseTimeToMinutes s⌋) % 1440 : ℤ) : ℚ) := by
  obtain ⟨a, ha, hpa⟩ := clockBound hs
  obtain ⟨b, hb, hpb⟩ := clockBound he
  have ha' : (a : ℚ) < 1440 := by exact_mod_cast ha
  have hb' : (b : ℚ) < 1440 := by exact_mod_cast hb
  have ha0 : (0 : ℚ) ≤ (a : ℚ) := by positivity
  have hb0 : (0 : ℚ) ≤ (b : ℚ) := by positivity
  constructor
  · rintro rfl
    simp [calculateDiffInMinutes]
  · have hfa : ⌊parseTimeToMinutes s⌋ = (a : ℤ) := by
      rw [hpa]; exact_mod_cast Int.floor_natCast a
    have hfb : ⌊parseTimeToMinutes e⌋ = (b : ℤ) := by
      rw [hpb]; exact_mod_cast Int.floor_natCast b
    rw [hfa, hfb]
    rcases lt_or_le (b : ℚ) (a : ℚ) with hlt | hge
    · have hltn : b < a := by exact_mod_cast hlt
      have hnn : ¬((b : ℚ) + 24 * 60 - a < 0) := by push_neg; linarith
      have hmod : ((b : ℤ) - a) % 1440 = (b : ℤ) - a + 1440 := by omega
      rw [calculateDiffInMinutes]
      simp only [hpa, hpb, hlt, if_true, hnn, if_false, Bool.false_eq_true, hmod]
      push_cast
      ring
    · have hgen : a ≤ b := by exact_mod_cast hge
      have hnlt : ¬((b : ℚ) < a) := not_lt.mpr hge
      have hnn : ¬((b : ℚ) - a < 0) := by push_neg; linarith
      have hmod : ((b : ℤ) - a) % 1440 = (b : ℤ) - a := by omega
      rw [calculateDiffInMinutes]
      simp only [hpa, hpb, hnlt, if_false, hnn, Bool.false_eq_true, hmod]
      push_cast
      ring

theorem elapsed_eq_mod_1440_witness :
    calculateDiffInMinutes "23:30" "00:15" false =
      (((⌊parseTimeToMinutes "00:15"⌋ - ⌊parseTimeToMinutes "23:30"⌋) % 1440 : ℤ) : ℚ) :=
  (elapsed_eq_mod_1440 "23:30" "00:15" (Or.inl (by decide)) (Or.inl (by decide))).2

/-- C2 counterexample: the claim quantifies over every pair of input
strings, but on `"0:0"`, `"0:7.5"` (the `Number` coercion accepts the
fractional minute field) the raw duration is 7.5 minutes while the
quantized result is 15, which differs from the raw duration by 7.5 > 7. -/
theorem elapsed_quantized_cex :
    calculateDiffInMinutes "0:0" "0:7.5" false = 15 / 2 ∧
    calculateDiffInMinutes "0:0" "0:7.5" true = 15 ∧
    ¬|calculateDiffInMinutes "0:0" "0:7.5" true -
        calculateDiffInMinutes "0:0" "0:7.5" false| ≤ 7 := by
  refine ⟨?_, ?_, ?_⟩ <;> with_unfolding_all decide

/-- C2 (amended): for every pair of input strings, the quantized result is
a multiple of 15 obtained as `round(raw / 15) * 15` with round-half-up
arithmetic; and whenever the raw duration is a whole number `n` of minutes
(as for every well-formed or empty clock-time input) the quantized result
differs from the raw duration by at most 7. -/
theorem elapsed_quantized (s e : String) :
    (∃ k : ℤ, calculateDiffInMinutes s e true = (k : ℚ) * 15) ∧
    calculateDiffInMinutes s e true =
      (jsRound (calculateDiffInMinutes s e false / 15) : ℚ) * 15 ∧
    ∀ n : ℤ, calculateDiffInMinutes s e false = (n : ℚ) →
      |calculateDiffInMinutes s e true - calculateDiffInMinutes s e false| ≤ 7 := by
  refine ⟨⟨jsRound (calculateDiffInMinutes s e false / 15), rfl⟩, rfl, ?_⟩
  intro n hn
  rw [calc_round_formula s e, hn]
  set q : ℤ := jsRound ((n : ℚ)) with hq0
  have hq : jsRound ((n : ℚ) / 15) = ⌊(n : ℚ) / 15 + 1 / 2⌋ := rfl
  have h1 : ((⌊(n : ℚ) / 15 + 1 / 2⌋ : ℤ) : ℚ) ≤ (n : ℚ) / 15 + 1 / 2 :=
    Int.floor_le _
  have h2 : (n : ℚ) / 15 + 1 / 2 < (⌊(n : ℚ) / 15 + 1 / 2⌋ : ℤ) + 1 :=
    Int.lt_floor_add_one _
  have h1' : 30 * ⌊(n : ℚ) / 15 + 1 / 2⌋ ≤ 2 * n + 15 := by
    have : ((30 * ⌊(n : ℚ) / 15 + 1 / 2⌋ : ℤ) : ℚ) ≤ ((2 * n + 15 : ℤ) : ℚ) := by
      push_cast
      linarith
    exact_mod_cast this
  have h2' : 2 * n + 15 < 30 * ⌊(n : ℚ) / 15 + 1 / 2⌋ + 30 := by
    have : ((2 * n + 15 : ℤ) : ℚ) < ((30 * ⌊(n : ℚ) / 15 + 1 / 2⌋ + 30 : ℤ) : ℚ) := by
      push_cast
      linarith
    exact_mod_cast this
  have habs : |15 * ⌊(n : ℚ) / 15 + 1 / 2⌋ - n| ≤ 7 := by
    rw [abs_le]
    omega
  have hcast : ((15 * ⌊(n : ℚ) / 15 + 1 / 2⌋ - n : ℤ) : ℚ) =
      (jsRound ((n : ℚ) / 15) : ℚ) * 15 - (n : ℚ) := by
    rw [hq]
    push_cast
    ring
  rw [← hcast, ← Int.cast_abs]
  exact_mod_cast habs

theorem elapsed_quantized_witness :
    (∃ k : ℤ, calculateDiffInMinutes "09:07" "09:52" true = (k : ℚ) * 15) ∧
    |calculateDiffInMinutes "09:07" "09:52" true -
      calculateDiffInMinutes "09:07" "09:52" false| ≤ 7 :=
  ⟨(elapsed_quantized "09:07" "09:52").1,
   (elapsed_quantized "09:07" "09:52").2.2 45 (by with_unfolding_all decide)⟩

/-- C8: `parseTimeToMinutes` returns 0 (never raising an error) whenever
the input is empty, lacks a `':'` separator, or either of its first two
`':'`-separated fields is not coercible to a number (NaN). -/
theorem parse_fails_soft (s : String)
    (h : s = "" ∨ s.toList.contains ':' = false ∨
      jsToNumber ((splitOnChar ':' s.toList).getD 0 []) = none ∨
      jsToNumber ((splitOnChar ':' s.toList).getD 1 []) = none) :
    parseTimeToMinutes s = 0 := by
  by_cases hg : s = "" ∨ s.toList.contains ':' = false
  · rw [parseTimeToMinutes, if_pos hg]
  · rw [parseTimeToMinutes, if_neg hg]
    rcases h with h | h | h | h
    · exact absurd (Or.inl h) hg
    · exact absurd (Or.inr h) hg
    · show (match jsToNumber ((splitOnChar ':' s.toList).getD 0 []),
            jsToNumber ((splitOnChar ':' s.toList).getD 1 []) with
          | some hq, some mq => hq * 60 + mq
          | _, _ => 0 : ℚ) = 0
      rw [h]
    · show (match jsToNumber ((splitOnChar ':' s.toList).getD 0 []),
            jsToNumber ((splitOnChar ':' s.toList).getD 1 []) with
          | some hq, some mq => hq * 60 + mq
          | _, _ => 0 : ℚ) = 0
      rcases hx : jsToNumber ((splitOnChar ':' s.toList).getD 0 []) with _ | v
      · rfl
      · rw [h]

theorem parse_fails_soft_witness :
    parseTimeToMinutes "ab:cd" = 0 :=
  parse_fails_soft "ab:cd" (Or.inr (Or.inr (Or.inl (by decide))))

/-- C10: under the precondition that both endpoints are well-formed
`HH:MM` strings or empty, the pre-clamp difference is never negative, so
the defensive clamp in `calculateDiffInMinutes` never changes the result
(the function agrees with its clamp-free variant). -/
theorem clamp_unreachable (s e : String) (rnd : Bool)
    (hs : isValidClockTime s = true ∨ s = "")
    (he : isValidClockTime e = true ∨ e = "") :
    0 ≤ preClampDiff s e ∧
    calculateDiffInMinutes s e rnd = calculateDiffNoClamp s e rnd := by
  obtain ⟨a, ha, hpa⟩ := clockBound hs
  obtain ⟨b, hb, hpb⟩ := clockBound he
  have ha' : (a : ℚ) < 1440 := by exact_mod_cast ha
  have hb0 : (0 : ℚ) ≤ (b : ℚ) := by positivity
  have key : 0 ≤ preClampDiff s e := by
    rw [preClampDiff]
    simp only [hpa, hpb]
    split_ifs with hf
    · linarith
    · push_neg at hf
      linarith
  refine ⟨key, ?_⟩
  rw [calc_eq_clamped, calcNoClamp_eq, if_neg (not_lt.mpr key)]

theorem clamp_unreachable_witness :
    0 ≤ preClampDiff "23:30" "00:15" ∧
    calculateDiffInMinutes "23:30" "00:15" true =
      calculateDiffNoClamp "23:30" "00:15" true :=
  clamp_unreachable "23:30" "00:15" true (Or.inl (by decide)) (Or.inl (by decide))

/-! ## Identity manager: claims C3 and C4 -/

theorem takeWhile_append_of (p : Char → Bool) :
    ∀ (l : List Char) (c' : Char) (rest : List Char),
      (∀ c ∈ l, p c = true) → p c' = false →
      List.takeWhile p (l ++ c' :: rest) = l := by
  intro l
  induction l with
  | nil =>
    intro c' rest _ hc'
    simp [List.takeWhile_cons, hc']
  | cons x xs ih =>
    intro c' rest hl hc'
    have hx : p x = true := hl x (by simp)
    have hxs : ∀ c ∈ xs, p c = true := fun c hc => hl c (by simp [hc])
    simp [List.takeWhile_cons, hx, ih c' rest hxs hc']

theorem extract_step (c : Char) (cs : List Char) (hc : ('<' == c) = false) :
    extractTrackerId (c :: cs) = extractTrackerId cs := by
  have hlw : leadsWith bangOpen (c :: cs) = false := by
    rw [show bangOpen = '<' :: ['!', '-', '-'] from rfl]
    rw [leadsWith, hc, Bool.false_and]
  rw [extractTrackerId, hlw]
  simp

theorem extract_append (l cs : List Char) (hl : ∀ c ∈ l, ('<' == c) = false) :
    extractTrackerId (l ++ cs) = extractTrackerId cs := by
  induction l with
  | nil => rfl
  | cons x xs ih =>
    have hx := hl x (by simp)
    have hxs : ∀ c ∈ xs, ('<' == c) = false := fun c hc => hl c (by simp [hc])
    rw [List.cons_append, extract_step x _ hx, ih hxs]

/-- C4: round-trip of identity stamping.  For every block content `grp`
and every inserted token `id` that is non-empty and whitespace-free (as
every `generateNewId` output, a base-36 fraction string, is),
`extractTrackerId` applied to the rewritten block text returns exactly the
token that was inserted. -/
theorem extract_roundtrip (id grp : List Char) (h1 : id ≠ [])
    (h2 : ∀ c ∈ id, isJsWS c = false) :
    extractTrackerId (stampNew id grp) = some id := by
  obtain ⟨c0, t, rfl⟩ : ∃ c0 t, id = c0 :: t := by
    cases id with
    | nil => exact absurd rfl h1
    | cons c0 t => exact ⟨c0, t, rfl⟩
  set id := c0 :: t with hid
  have hsp : stampNew id grp =
      (openTag ++ ['\n']) ++
        ('<' :: '!' :: '-' :: '-' :: ' ' :: 't' :: 'r' :: 'a' :: 'c' :: 'k' ::
          'e' :: 'r' :: '-' :: 'i' :: 'd' :: ':' :: ' ' ::
          (id ++ (' ' :: '-' :: '-' :: '>' :: '\n' :: (grp ++ fenceLit)))) := by
    rw [stampNew, markerOf]
    rw [show "<!-- tracker-id: ".toList =
      ['<', '!', '-', '-', ' ', 't', 'r', 'a', 'c', 'k', 'e', 'r', '-', 'i',
        'd', ':', ' '] from rfl]
    rw [show " -->".toList = [' ', '-', '-', '>'] from rfl]
    simp
  rw [hsp, extract_append _ _ (by decide)]
  have hlw : leadsWith bangOpen
      ('<' :: '!' :: '-' :: '-' :: ' ' :: 't' :: 'r' :: 'a' :: 'c' :: 'k' ::
        'e' :: 'r' :: '-' :: 'i' :: 'd' :: ':' :: ' ' ::
        (id ++ (' ' :: '-' :: '-' :: '>' :: '\n' :: (grp ++ fenceLit)))) = true := by
    rw [show bangOpen = ['<', '!', '-', '-'] from rfl]
    simp [leadsWith]
  rw [extractTrackerId, hlw]
  simp only [if_true, List.drop_succ_cons, List.drop_zero]
  have hdw1 : (' ' :: 't' :: 'r' :: 'a' :: 'c' :: 'k' :: 'e' :: 'r' :: '-' ::
      'i' :: 'd' :: ':' :: ' ' ::
      (id ++ (' ' :: '-' :: '-' :: '>' :: '\n' :: (grp ++ fenceLit)))).dropWhile
        isJsWS =
      't' :: 'r' :: 'a' :: 'c' :: 'k' :: 'e' :: 'r' :: '-' :: 'i' :: 'd' ::
        ':' :: ' ' :: (id ++ (' ' :: '-' :: '-' :: '>' :: '\n' ::
          (grp ++ fenceLit))) := by
    simp [List.dropWhile_cons, isJsWS]
  have hchop : chopLit idLit
      ('t' :: 'r' :: 'a' :: 'c' :: 'k' :: 'e' :: 'r' :: '-' :: 'i' :: 'd' ::
        ':' :: ' ' :: (id ++ (' ' :: '-' :: '-' :: '>' :: '\n' ::
          (grp ++ fenceLit)))) =
      some (' ' :: (id ++ (' ' :: '-' :: '-' :: '>' :: '\n' ::
        (grp ++ fenceLit)))) := by
    rw [show idLit = ['t', 'r', 'a', 'c', 'k', 'e', 'r', '-', 'i', 'd', ':']
      from rfl]
    simp [chopLit]
  have hc0 : isJsWS c0 = false := h2 c0 (by simp [hid])
  have hdw2 : (' ' :: (id ++ (' ' :: '-' :: '-' :: '>' :: '\n' ::
      (grp ++ fenceLit)))).dropWhile isJsWS =
      id ++ (' ' :: '-' :: '-' :: '>' :: '\n' :: (grp ++ fenceLit)) := by
    rw [List.dropWhile_cons]
    rw [if_pos (by decide)]
    rw [hid, List.cons_append, List.dropWhile_cons, hc0]
    simp
  have hwtake : (id ++ (' ' :: '-' :: '-' :: '>' :: '\n' ::
      (grp ++ fenceLit))).takeWhile (fun c => !isJsWS c) = id := by
    refine takeWhile_append_of _ id ' ' _ ?_ (by decide)
    intro c hc
    simp [h2 c hc]
  have hwdrop : (id ++ (' ' :: '-' :: '-' :: '>' :: '\n' ::
      (grp ++ fenceLit))).drop id.length =
      ' ' :: '-' :: '-' :: '>' :: '\n' :: (grp ++ fenceLit) := by
    simp
  have hlen : id.length = t.length + 1 := by simp [hid]
  have hdropid : id.drop (t.length + 1) = [] := by
    rw [hid]
    simp [List.drop_succ_cons, List.drop_length]
  have hcond : leadsWith closeLit ((id.drop (t.length + 1) ++
      (' ' :: '-' :: '-' :: '>' :: '\n' :: (grp ++ fenceLit))).dropWhile
        isJsWS) = true := by
    rw [hdropid, List.nil_append, List.dropWhile_cons, if_pos (by decide),
      List.dropWhile_cons, if_neg (by decide),
      show closeLit = ['-', '-', '>'] from rfl]
    simp [leadsWith]
  have htry : trySplit id.length id
      (' ' :: '-' :: '-' :: '>' :: '\n' :: (grp ++ fenceLit)) = some id := by
    rw [hlen, trySplit, if_pos hcond,
      show t.length + 1 = id.length from hlen.symm, List.take_length]
  have hbody : matchMarkerBody
      (' ' :: 't' :: 'r' :: 'a' :: 'c' :: 'k' :: 'e' :: 'r' :: '-' :: 'i' ::
        'd' :: ':' :: ' ' ::
        (id ++ (' ' :: '-' :: '-' :: '>' :: '\n' :: (grp ++ fenceLit)))) =
      some id := by
    rw [matchMarkerBody, hdw1, hchop]
    simp only [hdw2, hwtake, hwdrop, htry]
  rw [hbody]

theorem extract_roundtrip_witness :
    extractTrackerId (stampNew "a1b2c3d4e".toList " 09:00 rows ".toList) =
      some "a1b2c3d4e".toList :=
  extract_roundtrip "a1b2c3d4e".toList " 09:00 rows ".toList (by decide)
    (by decide)

theorem fixAllGo_stamped (ids : Nat → List Char) :
    ∀ (k : Nat) (ms : List (List Char × List Char)) (u : List Char),
      (∀ m ∈ ms, (extractTrackerId m.2).isSome = true) →
      fixAllGo ids k ms u = u := by
  intro k ms
  induction ms generalizing k with
  | nil => intro u _; rfl
  | cons m tl ih =>
    intro u h
    obtain ⟨full, grp⟩ := m
    have hm : (extractTrackerId grp).isSome = true := h (full, grp) (by simp)
    obtain ⟨g, hg⟩ := Option.isSome_iff_exists.mp hm
    rw [fixAllGo, hg]
    exact ih k u (fun m hmem => h m (by simp [hmem]))

/-- C3 (amended): the rewrite makes no change on a document in which every
fenced time-tracker region already carries an embedded marker; in
particular, whenever one pass leaves every region stamped, a second pass
(with any id supply) returns the text unchanged.  Full idempotence for
every document fails: see the counterexample. -/
theorem fix_idempotent_when_stamped (ids ids2 : Nat → List Char)
    (x : List Char)
    (h : ∀ m ∈ findMatches (fixAllTrackerBlocksInFile ids x),
      (extractTrackerId m.2).isSome = true) :
    fixAllTrackerBlocksInFile ids2 (fixAllTrackerBlocksInFile ids x) =
      fixAllTrackerBlocksInFile ids x :=
  fixAllGo_stamped ids2 0 (findMatches (fixAllTrackerBlocksInFile ids x))
    (fixAllTrackerBlocksInFile ids x) h

theorem fix_idempotent_when_stamped_witness :
    fixAllTrackerBlocksInFile constIds (fixAllTrackerBlocksInFile constIds
      simpleDoc) = fixAllTrackerBlocksInFile constIds simpleDoc :=
  fix_idempotent_when_stamped constIds constIds simpleDoc (by decide)

/-- C3 counterexample: on the overlapping-fences document
`` "```time-tracker ```time-tracker A ``` ```time-tracker A ```" `` one
pass stamps the first (lazy) match and, because the replacement of the
second match's text lands on an earlier overlap-induced occurrence, the
trailing fenced region is left unstamped, so a second pass changes the
text again: the rewrite is not idempotent. -/
theorem fix_not_idempotent_cex :
    fixAllTrackerBlocksInFile constIds (fixAllTrackerBlocksInFile constIds
      overlapDoc) ≠ fixAllTrackerBlocksInFile constIds overlapDoc := by
  decide

/-! ## Export filter: claim C5 -/

theorem isDateInRange_eq_spec (d ds de : String) :
    isDateInRange d ds de =
      (match parseIsoDate d, parseIsoDate ds, parseIsoDate de with
       | some x, some lo, some hi => ymdLe lo x && ymdLe x hi
       | _, _, _ => false) := by
  by_cases h : d = ""
  · subst h
    rw [isDateInRange, if_pos rfl]
    rfl
  · rw [isDateInRange, if_neg h]

/-- C5: the export filter returns exactly the entries whose `date` field
lies in the inclusive calendar-date range `[dateStart, dateEnd]` and, when
the optional project is non-empty, whose project equals it exactly; the
result is a sublist of the input, so input order is preserved. -/
theorem filterEntries_spec (allEntries : List TimeEntry) (ds de p : String) :
    filterEntries allEntries ds de p =
      allEntries.filter (specKeepEntry ds de p) ∧
    (filterEntries allEntries ds de p).Sublist allEntries := by
  have hfun : (fun e : TimeEntry =>
      isDateInRange e.date ds de && (p == "" || e.project == p)) =
      specKeepEntry ds de p := by
    funext e
    rw [specKeepEntry, isDateInRange_eq_spec]
  constructor
  · rw [filterEntries, hfun]
  · rw [filterEntries]
    exact List.filter_sublist allEntries

/-! ## Block state: claims C6 and C7 -/

/-- C6: `getOrCreateBlock` (the data part of `TimeTrackerBlock.initialize`):
for an id with no stored data it initializes an empty entry sequence, the
`none` (null) sort preference, and today's date as the reference date; for
an id whose data is stored (entries present, a sort preference present,
and a non-empty reference date present) the state is returned unchanged. -/
theorem getOrCreateBlock_spec (today id : String) (st : PluginData) :
    (st.instances id = none → st.sortSettings id = none →
      st.trackerDates id = none →
      (initializeBlockData today id st).instances id = some [] ∧
      (initializeBlockData today id st).sortSettings id = some none ∧
      (initializeBlockData today id st).trackerDates id = some today) ∧
    (∀ es sp dte, st.instances id = some es → st.sortSettings id = some sp →
      st.trackerDates id = some dte → dte ≠ "" →
      initializeBlockData today id st = st) := by
  constructor
  · intro h1 h2 h3
    refine ⟨?_, ?_, ?_⟩ <;> simp [initializeBlockData, h1, h2, h3]
  · intro es sp dte h1 h2 h3 h4
    obtain ⟨fi, fs, fd⟩ := st
    simp only at h1 h2 h3
    apply PluginData.ext
    · simp [initializeBlockData, h1]
    · rcases sp with _ | k
      · funext j
        by_cases hj : j = id
        · subst hj
          simp [initializeBlockData, h1, h2]
        · simp [initializeBlockData, h1, h2, hj]
      · simp [initializeBlockData, h1, h2]
    · simp [initializeBlockData, h1, h2, h3, h4]

theorem getOrCreateBlock_spec_witness :
    (initializeBlockData "2026-10-11" "a" stEmpty).instances "a" = some [] ∧
    (initializeBlockData "2026-10-11" "a" stEmpty).sortSettings "a" =
      some none ∧
    (initializeBlockData "2026-10-11" "a" stEmpty).trackerDates "a" =
      some "2026-10-11" :=
  (getOrCreateBlock_spec "2026-10-11" "a" stEmpty).1 rfl rfl rfl

/-- C7: `setReferenceDate` overwrites the `date` field of every entry of
the block with the new date while leaving `start`, `end`, `project` and
`activity` of those entries unchanged, and leaves every other block's
entry sequence (and the sort settings) unchanged. -/
theorem setReferenceDate_spec (id val : String) (st : PluginData)
    (es : List TimeEntry) (h : st.instances id = some es) :
    (setReferenceDate id val st).instances id =
      some (es.map (fun e => { e with date := val })) ∧
    (∀ e' ∈ es.map (fun e => { e with date := val }), e'.date = val) ∧
    (es.map (fun e => { e with date := val })).map TimeEntry.start =
      es.map TimeEntry.start ∧
    (es.map (fun e => { e with date := val })).map TimeEntry.«end» =
      es.map TimeEntry.«end» ∧
    (es.map (fun e => { e with date := val })).map TimeEntry.project =
      es.map TimeEntry.project ∧
    (es.map (fun e => { e with date := val })).map TimeEntry.activity =
      es.map TimeEntry.activity ∧
    (∀ j, j ≠ id → (setReferenceDate id val st).instances j =
      st.instances j) ∧
    (setReferenceDate id val st).sortSettings = st.sortSettings := by
  refine ⟨?_, ?_, ?_, ?_, ?_, ?_, ?_, ?_⟩
  · simp [setReferenceDate, h]
  · intro e' he'
    simp only [List.mem_map] at he'
    obtain ⟨e, _, rfl⟩ := he'
    rfl
  · simp [List.map_map, Function.comp]
  · simp [List.map_map, Function.comp]
  · simp [List.map_map, Function.comp]
  · simp [List.map_map, Function.comp]
  · intro j hj
    simp [setReferenceDate, hj]
  · rfl

theorem setReferenceDate_spec_witness :
    (setReferenceDate "a" "2026-01-05" stOne).instances "a" =
      some ([entryA1, entryA2].map (fun e => { e with date := "2026-01-05" })) :=
  (setReferenceDate_spec "a" "2026-01-05" stOne [entryA1, entryA2] rfl).1

/-! ## Aggregation: claim C9 -/

theorem sumVals_addToMap (k : String) (v : ℚ) :
    ∀ m : List (String × ℚ), sumVals (addToMap k v m) = sumVals m + v := by
  intro m
  induction m with
  | nil => simp [addToMap, sumVals]
  | cons p rest ih =>
    obtain ⟨k', v'⟩ := p
    by_cases hk : k' = k
    · simp [addToMap, hk, sumVals]
      ring
    · simp only [addToMap, hk, if_false, sumVals, List.map_cons, List.sum_cons]
      rw [show (List.map Prod.snd (addToMap k v rest)).sum =
        sumVals (addToMap k v rest) from rfl, ih]
      show v' + (sumVals rest + v) = v' + sumVals rest + v
      ring

theorem sumsBy_fold (key : TimeEntry → String) (q : Bool) :
    ∀ (es : List TimeEntry) (m : List (String × ℚ)),
      (∀ e ∈ es, jsTrim (key e) ≠ "") →
      sumVals (es.foldl (fun m e =>
        let k := jsTrim (key e)
        if k = "" then m else addToMap k (durOf q e) m) m) =
      sumVals m + (es.map (durOf q)).sum := by
  intro es
  induction es with
  | nil =>
    intro m _
    simp
  | cons e tl ih =>
    intro m h
    have he : jsTrim (key e) ≠ "" := h e (by simp)
    rw [List.foldl_cons]
    simp only [if_neg he]
    rw [ih _ (fun x hx => h x (by simp [hx])), sumVals_addToMap]
    simp [List.map_cons]
    ring

theorem foldl_add_dur (q : Bool) :
    ∀ (es : List TimeEntry) (c : ℚ),
      es.foldl (fun acc e => acc + durOf q e) c = c + (es.map (durOf q)).sum := by
  intro es
  induction es with
  | nil =>
    intro c
    simp
  | cons e tl ih =>
    intro c
    rw [List.foldl_cons, ih]
    simp [List.map_cons]
    ring

/-- C9: when every entry of a block has a non-empty trimmed project and a
non-empty trimmed activity, the sum of the values of the per-project map
and the sum of the values of the per-activity map each equal the block's
grand total, all computed with the same quantize flag. -/
theorem aggregation_sums (q : Bool) (entries : List TimeEntry)
    (h : ∀ e ∈ entries, jsTrim e.project ≠ "" ∧ jsTrim e.activity ≠ "") :
    sumVals (projectSums q entries) = calculateSumAllMinutes q entries ∧
    sumVals (activitySums q entries) = calculateSumAllMinutes q entries := by
  have hsum : calculateSumAllMinutes q entries = (entries.map (durOf q)).sum := by
    rw [calculateSumAllMinutes, foldl_add_dur]
    ring
  constructor
  · rw [projectSums, sumsBy, hsum,
      sumsBy_fold TimeEntry.project q entries [] (fun e he => (h e he).1)]
    simp [sumVals]
  · rw [activitySums, sumsBy, hsum,
      sumsBy_fold TimeEntry.activity q entries [] (fun e he => (h e he).2)]
    simp [sumVals]

theorem aggregation_sums_witness :
    sumVals (projectSums false [entryA1, entryA2]) =
      calculateSumAllMinutes false [entryA1, entryA2] ∧
    sumVals (activitySums false [entryA1, entryA2]) =
      calculateSumAllMinutes false [entryA1, entryA2] :=
  aggregation_sums false [entryA1, entryA2] (by decide)

end TimeTracker
